import Mathlib

/-!
# Scout — verification of the pipeline/dedup core

A shallow embedding of the Scout repository (scheduled scrape → analyze →
filter → store → notify pipeline) and proofs about it.

Embedding conventions:
* Python `str` is `String`; `str.strip()` / `str.lower()` are modelled by
  `pyStrip` / `pyLower` below (character-level, so they evaluate in the
  kernel; `pyLower` follows `Char.toLower`, which lowercases exactly the
  ASCII range, matching CPython for the ASCII data this pipeline handles).
* Python floats (opportunity scores) are modelled as `Rat`.
* `datetime.now()` readings are modelled by a `now : Nat` clock carried in
  the database state; each read advances the clock.
* SQLite tables are lists of rows; `INTEGER PRIMARY KEY AUTOINCREMENT` is a
  `nextId` counter.  Wall-clock durations are not modelled.
-/

/-- Python `c.isspace()`-style whitespace test used by `str.strip()`;
`Char.isWhitespace` covers space, tab, CR, LF, which is what the scraped
ASCII data can contain. -/
def isPySpace (c : Char) : Bool := c.isWhitespace

/-- Python `str.lower()` (ASCII range, via `Char.toLower`). -/
def pyLower (s : String) : String := ⟨s.data.map Char.toLower⟩

/-- Python `str.strip()`: remove leading and trailing whitespace. -/
def pyStrip (s : String) : String :=
  ⟨((s.data.dropWhile isPySpace).reverse.dropWhile isPySpace).reverse⟩

/-- `','.join(sources)` from the orchestrator. -/
def pyJoinComma (l : List String) : String := String.intercalate "," l

theorem char_toNat_ofNat_valid {n : Nat} (h : n.isValidChar) :
    (Char.ofNat n).toNat = n := by
  simp [Char.ofNat, dif_pos h, Char.ofNatAux, Char.toNat, UInt32.toNat]

theorem char_eq_iff_toNat (d e : Char) : d = e ↔ d.toNat = e.toNat :=
  ⟨fun h => h ▸ rfl, fun h => Char.ext (UInt32.ext h)⟩

theorem char_isWhitespace_iff (d : Char) :
    d.isWhitespace = true ↔
      d.toNat = 32 ∨ d.toNat = 9 ∨ d.toNat = 13 ∨ d.toNat = 10 := by
  have h1 : (' ').toNat = 32 := rfl
  have h2 : ('\t').toNat = 9 := rfl
  have h3 : ('\r').toNat = 13 := rfl
  have h4 : ('\n').toNat = 10 := rfl
  simp only [Char.isWhitespace, Bool.or_eq_true, decide_eq_true_eq,
    char_eq_iff_toNat, h1, h2, h3, h4]
  tauto

/-- Lowercasing never turns a character into or out of whitespace, so
`strip` and `lower` commute (the filter lower-then-strips history titles
but strip-then-lowers candidate titles). -/
theorem isPySpace_toLower (c : Char) : isPySpace c.toLower = isPySpace c := by
  by_cases h : c.toNat ≥ 65 ∧ c.toNat ≤ 90
  · have hlow : c.toLower = Char.ofNat (c.toNat + 32) := by
      simp [Char.toLower, h]
    have hv : (c.toNat + 32).isValidChar := Or.inl (by omega)
    have ht : (Char.ofNat (c.toNat + 32)).toNat = c.toNat + 32 :=
      char_toNat_ofNat_valid hv
    have h1 : (Char.ofNat (c.toNat + 32)).isWhitespace = false := by
      rw [Bool.eq_false_iff]
      intro hw
      have := (char_isWhitespace_iff _).mp hw
      rw [ht] at this
      omega
    have h2 : c.isWhitespace = false := by
      rw [Bool.eq_false_iff]
      intro hw
      have := (char_isWhitespace_iff _).mp hw
      omega
    rw [isPySpace, isPySpace, hlow, h1, h2]
  · have hlow : c.toLower = c := by
      simp [Char.toLower, h]
    rw [isPySpace, isPySpace, hlow]

theorem pyStrip_pyLower_comm (s : String) :
    pyStrip (pyLower s) = pyLower (pyStrip s) := by
  have hcomp : (isPySpace ∘ Char.toLower) = isPySpace := by
    funext c
    exact isPySpace_toLower c
  simp only [pyStrip, pyLower, List.dropWhile_map, hcomp, ← List.map_reverse]

/-- Normalized title used by dedup: strip, then lowercase (on the
candidate side; the history side lowercases then strips, which agrees by
`pyStrip_pyLower_comm`). -/
def normTitle (s : String) : String := pyLower (pyStrip s)

/-! ## Data model (`scout/database.py`) -/

/-- A candidate opportunity dict as produced by
`AnalyzerAgent._analyze_batch` (all seven keys always present, so the
`.get` defaults in `database.py` and `filter_agent.py` collapse to plain
field reads). -/
structure Candidate where
  title : String
  description : String
  score : Rat
  domain : String
  tags : String
  source : String
  url : String
deriving DecidableEq

/-- One row of the `opportunities` table.  `found_date` is a clock reading
(`datetime.now().isoformat()` in the source; ISO strings compare in clock
order, so a `Nat` clock is faithful to the `ORDER BY found_date` uses). -/
structure OppRow where
  id : Nat
  title : String
  description : String
  source : String
  url : String
  score : Rat
  domain : String
  tags : String
  raw_data : String
  found_date : Nat
  status : String
deriving DecidableEq

/-- One row of the `scan_log` table (`duration_seconds` wall clock not
modelled). -/
structure ScanLogRow where
  scan_date : Nat
  sources_scanned : String
  items_found : Nat
  opportunities_added : Nat
deriving DecidableEq

/-- The SQLite database: `opportunities`, `dismissed`, `bookmarked` and
`scan_log` tables (the `email_log` table belongs to the out-of-scope email
glue), plus the autoincrement counter and the model clock. -/
structure DbState where
  opportunities : List OppRow
  nextId : Nat
  dismissed : List (Nat × Nat)
  bookmarked : List (Nat × Nat)
  scanLog : List ScanLogRow
  now : Nat
deriving DecidableEq

/-! ## `database.py` operations -/

/-- The duplicate check of `save_opportunities`:
`SELECT id FROM opportunities WHERE url = ? OR title = ?` bound to
`(opp.get('url',''), opp.get('title',''))` — note it compares the URL
column even when the candidate URL is the empty string. -/
def collides (rows : List OppRow) (c : Candidate) : Bool :=
  rows.any fun r => r.url == c.url || r.title == c.title

/-- The row the `INSERT INTO opportunities ...` of `save_opportunities`
builds: a fresh autoincrement id, `raw_data` defaulted to `''` (analyzer
candidates carry no `raw_data` key), `found_date = datetime.now()`,
`status = 'new'`. -/
def mkOppRow (db : DbState) (c : Candidate) : OppRow :=
  { id := db.nextId, title := c.title, description := c.description,
    source := c.source, url := c.url, score := c.score,
    domain := c.domain, tags := c.tags, raw_data := "",
    found_date := db.now, status := "new" }

/-- The `INSERT` of `save_opportunities`, as a state change. -/
def insertRow (db : DbState) (c : Candidate) : DbState :=
  { db with
    opportunities := db.opportunities ++ [mkOppRow db c],
    nextId := db.nextId + 1,
    now := db.now + 1 }

/-- `save_opportunities(opportunities) -> added`: left-to-right over the
candidate list, skip when the duplicate check fires (each `INSERT` is
visible to the checks for later candidates on the same connection),
otherwise insert and count. -/
def save_opportunities (db : DbState) : List Candidate → DbState × Nat
  | [] => (db, 0)
  | c :: rest =>
    if collides db.opportunities c then
      save_opportunities db rest
    else
      let out := save_opportunities (insertRow db c) rest
      (out.1, out.2 + 1)

/-- `dismiss_opportunity(opp_id)`: append a `dismissed` log row, then
`UPDATE opportunities SET status = 'dismissed' WHERE id = ?` (a no-op when
no row has that id). -/
def dismiss_opportunity (db : DbState) (opp_id : Nat) : DbState :=
  { db with
    dismissed := db.dismissed ++ [(opp_id, db.now)],
    opportunities := db.opportunities.map fun r =>
      if r.id = opp_id then { r with status := "dismissed" } else r,
    now := db.now + 1 }

/-- `bookmark_opportunity(opp_id)`: append a `bookmarked` log row, then
`UPDATE opportunities SET status = 'bookmarked' WHERE id = ?`. -/
def bookmark_opportunity (db : DbState) (opp_id : Nat) : DbState :=
  { db with
    bookmarked := db.bookmarked ++ [(opp_id, db.now)],
    opportunities := db.opportunities.map fun r =>
      if r.id = opp_id then { r with status := "bookmarked" } else r,
    now := db.now + 1 }

/-- `log_scan(sources, items_found, opportunities_added, duration)`:
append one `scan_log` row. -/
def log_scan (db : DbState) (sources : String)
    (items_found opportunities_added : Nat) : DbState :=
  { db with
    scanLog := db.scanLog ++
      [{ scan_date := db.now, sources_scanned := sources,
         items_found := items_found,
         opportunities_added := opportunities_added }],
    now := db.now + 1 }

/-- The `ORDER BY score DESC, found_date DESC` ordering of
`get_opportunities`. -/
def digestOrder (a b : OppRow) : Prop :=
  b.score < a.score ∨ (a.score = b.score ∧ b.found_date ≤ a.found_date)

instance : DecidableRel digestOrder := fun a b => by
  unfold digestOrder
  infer_instance

instance : IsTotal OppRow digestOrder := by
  constructor
  intro a b
  rcases lt_trichotomy a.score b.score with h | h | h
  · exact Or.inr (Or.inl h)
  · rcases Nat.le_total b.found_date a.found_date with hf | hf
    · exact Or.inl (Or.inr ⟨h, hf⟩)
    · exact Or.inr (Or.inr ⟨h.symm, hf⟩)
  · exact Or.inl (Or.inl h)

instance : IsTrans OppRow digestOrder := by
  constructor
  intro a b c hab hbc
  rcases hab with hab | ⟨hab, hab'⟩
  · rcases hbc with hbc | ⟨hbc, hbc'⟩
    · exact Or.inl (hbc.trans hab)
    · exact Or.inl (hbc ▸ hab)
  · rcases hbc with hbc | ⟨hbc, hbc'⟩
    · exact Or.inl (hab ▸ hbc)
    · exact Or.inr ⟨hab.trans hbc, hbc'.trans hab'⟩

/-- The ids present in the `dismissed` table. -/
def dismissedIds (db : DbState) : List Nat := db.dismissed.map Prod.fst

/-- `get_opportunities(status, limit, min_score)`:
`WHERE score >= min_score [AND status = ?] AND id NOT IN (SELECT
opportunity_id FROM dismissed) ORDER BY score DESC, found_date DESC LIMIT
limit`. -/
def get_opportunities (db : DbState) (status : Option String) (limit : Nat)
    (min_score : Rat) : List OppRow :=
  let rows := db.opportunities.filter fun r =>
    decide (min_score ≤ r.score) &&
      (match status with
       | some s => r.status == s
       | none => true) &&
      !(dismissedIds db).contains r.id
  (List.insertionSort digestOrder rows).take limit

/-- `get_top_opportunities(limit=5)` =
`get_opportunities(status='new', limit=limit, min_score=5.0)`. -/
def get_top_opportunities (db : DbState) (limit : Nat := 5) : List OppRow :=
  get_opportunities db (some "new") limit 5

/-! ## `agents/filter_agent.py` -/

/-- The set `existing_titles` built by `FilterAgent.process`:
`row['title'].lower().strip()` for every `opportunities` row. -/
def existingTitles (db : DbState) : List String :=
  db.opportunities.map fun r => pyStrip (pyLower r.title)

/-- The set `existing_urls` built by `FilterAgent.process`:
`row['url'].strip()` for every row whose `url` is truthy (non-empty). -/
def existingUrls (db : DbState) : List String :=
  (db.opportunities.filter fun r => r.url ≠ "").map fun r => pyStrip r.url

/-- Why the filter loop dropped a candidate: the four `continue`s of
`FilterAgent.process`, in source order. -/
inductive DropReason where
  | lowScore
  | batchDup
  | historyTitle
  | historyUrl
deriving DecidableEq

/-- The filter loop of `FilterAgent.process`, instrumented: each input
candidate is paired with `none` (kept) or the `continue` that dropped it.
`seen` is the `seen_titles` set; note the source adds `title_lower` to
`seen_titles` before the two history checks, so a candidate dropped by
history still shadows later same-title candidates. -/
def filterTrace (eT eU : List String) :
    List String → List Candidate → List (Candidate × Option DropReason)
  | _, [] => []
  | seen, opp :: rest =>
    if opp.score < 4 then
      (opp, some .lowScore) :: filterTrace eT eU seen rest
    else
      let title_lower := pyLower (pyStrip opp.title)
      if title_lower ∈ seen then
        (opp, some .batchDup) :: filterTrace eT eU seen rest
      else
        let url := pyStrip opp.url
        if title_lower ∈ eT then
          (opp, some .historyTitle) :: filterTrace eT eU (title_lower :: seen) rest
        else if url ≠ "" ∧ url ∈ eU then
          (opp, some .historyUrl) :: filterTrace eT eU (title_lower :: seen) rest
        else
          (opp, none) :: filterTrace eT eU (title_lower :: seen) rest

/-- The filter loop of `FilterAgent.process` exactly as in the source:
survivors in input order. -/
def filterLoop (eT eU : List String) :
    List String → List Candidate → List Candidate
  | _, [] => []
  | seen, opp :: rest =>
    if opp.score < 4 then
      filterLoop eT eU seen rest
    else
      let title_lower := pyLower (pyStrip opp.title)
      if title_lower ∈ seen then
        filterLoop eT eU seen rest
      else
        let url := pyStrip opp.url
        if title_lower ∈ eT then
          filterLoop eT eU (title_lower :: seen) rest
        else if url ≠ "" ∧ url ∈ eU then
          filterLoop eT eU (title_lower :: seen) rest
        else
          opp :: filterLoop eT eU (title_lower :: seen) rest

/-- `FilterAgent.process`: early return on an empty input, otherwise run
the loop against the history snapshot (the `dismissed_ids` set is built by
the source but unused by the filtering itself). -/
def filterAgentProcess (db : DbState) (opportunities : List Candidate) :
    List Candidate :=
  if opportunities = [] then []
  else filterLoop (existingTitles db) (existingUrls db) [] opportunities

/-- Survivors of the instrumented trace. -/
def traceSurvivors (t : List (Candidate × Option DropReason)) :
    List Candidate :=
  (t.filter fun p => p.2 = none).map Prod.fst

theorem filterLoop_eq_traceSurvivors (eT eU : List String) :
    ∀ (seen : List String) (l : List Candidate),
      filterLoop eT eU seen l = traceSurvivors (filterTrace eT eU seen l) := by
  intro seen l
  induction l generalizing seen with
  | nil => rfl
  | cons opp rest ih =>
    rw [filterLoop, filterTrace]
    split
    · rw [ih seen]
      rfl
    · dsimp only
      split
      · rw [ih seen]
        rfl
      · split
        · rw [ih]
          rfl
        · split
          · rw [ih]
            rfl
          · rw [ih]
            rfl

/-! ## `agents/analyzer_agent.py` — batch reply cleaning

`_analyze_batch` sends one prompt per batch and parses the reply:
markdown fences are stripped, `json.loads` produces a value, a non-list
value is replaced by `[]`, and each element is cleaned.  We embed from the
parsed JSON value on (the claims about this code quantify over replies
that parse as JSON). -/

/-- A parsed JSON value as `json.loads` returns it (numbers as `Rat`). -/
inductive Json where
  | null
  | bool (b : Bool)
  | num (q : Rat)
  | str (s : String)
  | arr (xs : List Json)
  | obj (fields : List (String × Json))

/-- `fields.get(key)` on a parsed JSON object (dict keys are unique, so
first-match lookup is faithful). -/
def jsonGet (fields : List (String × Json)) (key : String) : Option Json :=
  fields.lookup key

/-- Python `str(v)` for a parsed JSON value.  Only the string case matters
to the claims; the rendering of numbers is a simple decimal form. -/
def pyStr : Json → String
  | .null => "None"
  | .bool b => if b then "True" else "False"
  | .num q => toString q
  | .str s => s
  | .arr _ => "<list>"
  | .obj _ => "<dict>"

/-- Digits of a decimal literal chunk, or `none` if empty/non-digit. -/
def parseDigits : List Char → Option Nat
  | [] => none
  | cs =>
    if cs.all Char.isDigit then
      some (cs.foldl (fun acc c => acc * 10 + (c.toNat - 48)) 0)
    else none

/-- Python `float(s)` on a string, modelled for plain decimal literals:
optional sign, digits, optional fractional part (`"7"`, `"-3.5"`,
`"4."`, `".5"`).  Exponents, `inf`/`nan` and surrounding whitespace are
not modelled; every string outside this grammar fails, as `float` raises
`ValueError` outside its own grammar. -/
def parseFloat : String → Option Rat := fun s =>
  let step : List Char → Option Rat := fun cs =>
    match cs.splitOn '.' with
    | [intPart] => (parseDigits intPart).map fun n => (n : Rat)
    | [intPart, fracPart] =>
      if intPart = [] ∧ fracPart = [] then none
      else
        let ipart : Option Nat :=
          if intPart = [] then some 0 else parseDigits intPart
        let fpart : Option (Nat × Nat) :=
          if fracPart = [] then some (0, 0)
          else (parseDigits fracPart).map fun n => (n, fracPart.length)
        match ipart, fpart with
        | some i, some (f, k) => some (mkRat (i * 10 ^ k + f) (10 ^ k))
        | _, _ => none
    | _ => none
  match s.data with
  | '+' :: rest => step rest
  | '-' :: rest => (step rest).map fun q => -q
  | cs => step cs

/-- How a Python `float(v)` coercion of a parsed JSON value ends. -/
inductive FloatCoerce where
  | ok (q : Rat)
  | valueError
  | typeError
deriving DecidableEq

/-- `float(v)` for each parsed JSON value: numbers and booleans coerce,
strings go through the float grammar (`ValueError` outside it), `None`,
lists and dicts raise `TypeError`. -/
def pyFloat : Json → FloatCoerce
  | .num q => .ok q
  | .bool b => .ok (if b then 1 else 0)
  | .str s =>
    match parseFloat s with
    | some q => .ok q
    | none => .valueError
  | .null => .typeError
  | .arr _ => .typeError
  | .obj _ => .typeError

/-- Cleaning one element of the parsed array, as in `_analyze_batch`:
skip non-dicts and dicts without `'title'`; otherwise build the candidate
dict, where only the `float(opp.get('score', 0))` coercion can raise. -/
def cleanOne (j : Json) : Except FloatCoerce (Option Candidate) :=
  match j with
  | .obj fields =>
    if (jsonGet fields "title").isSome then
      match pyFloat ((jsonGet fields "score").getD (.num 0)) with
      | .ok q =>
        .ok (some
          { title := pyStr ((jsonGet fields "title").getD (.str ""))
            description := pyStr ((jsonGet fields "description").getD (.str ""))
            score := q
            domain := pyStr ((jsonGet fields "domain").getD (.str "unknown"))
            tags := pyStr ((jsonGet fields "tags").getD (.str ""))
            source := pyStr ((jsonGet fields "source_item").getD (.str ""))
            url := pyStr ((jsonGet fields "url").getD (.str "")) })
      | .valueError => .error .valueError
      | .typeError => .error .typeError
    else .ok none
  | _ => .ok none

/-- The cleaning loop over the parsed array: left to right, first raised
exception wins. -/
def cleanList : List Json → Except FloatCoerce (List Candidate)
  | [] => .ok []
  | j :: rest =>
    match cleanOne j with
    | .error e => .error e
    | .ok c? =>
      match cleanList rest with
      | .error e => .error e
      | .ok cs =>
        .ok (match c? with
             | some c => c :: cs
             | none => cs)

/-- How `_analyze_batch` ends, from the parsed JSON value on. -/
inductive BatchOutcome where
  | candidates (cs : List Candidate)
  | uncaughtTypeError
deriving DecidableEq

/-- `_analyze_batch` after `json.loads` succeeded: a non-list value is
replaced by `[]`; the cleaning loop runs, a raised `ValueError` is caught
by the surrounding `except (json.JSONDecodeError, IndexError, ValueError)`
and turns the whole batch into `[]`, while a raised `TypeError` is not in
that tuple and escapes. -/
def analyzeBatchParsed (j : Json) : BatchOutcome :=
  let opportunities := match j with
    | .arr xs => xs
    | _ => []
  match cleanList opportunities with
  | .ok cs => .candidates cs
  | .error .valueError => .candidates []
  | .error _ => .uncaughtTypeError

/-! ## `orchestrator.py` — `ScoutOrchestrator.run_daily_scan`

The scraper and the two external services (the text-understanding call
inside the analyzer, the email delivery inside `send_daily_digest`) are
the pipeline's free inputs: the scrape result is passed in, the analyzer
is a function from raw items to candidates, and the notifier is a function
from the digest list to a success flag.  Everything between them is the
code under verification. -/

/-- A raw scraped item (content only flows into the external analyzer). -/
structure RawItem where
  title : String
  description : String
  url : String
  source : String
deriving DecidableEq

/-- The scraper's output dict: `raw_items` and `sources_scanned`. -/
structure ScrapeResult where
  raw_items : List RawItem
  sources_scanned : List String
deriving DecidableEq

/-- The dict `run_daily_scan` returns: the early `no_data` return or the
full result (the float `duration_seconds` and the `top_opportunities`
preview are not modelled). -/
inductive ScanOutcome where
  | no_data (items_found : Nat)
  | complete (items_scraped opportunities_detected after_filtering
      new_stored : Nat) (email_sent : Bool)
deriving DecidableEq

/-- Which pipeline stages a run performed. -/
structure StagesRun where
  analyze : Bool
  filterStage : Bool
  store : Bool
  notify : Bool
deriving DecidableEq

/-- Result of one `run_daily_scan` call: the returned dict, the database
afterwards, the stages performed, and the list handed to
`send_daily_digest` (`[]` when notification was skipped). -/
structure RunOutput where
  outcome : ScanOutcome
  db : DbState
  stages : StagesRun
  digest : List OppRow
deriving DecidableEq

/-- `ScoutOrchestrator.run_daily_scan`: scrape, early-exit with a zero
scan-log row when no raw items, otherwise analyze → filter → store →
digest (email only attempted when the top list is non-empty) → scan-log
row with the real counts. -/
def run_daily_scan (analyze : List RawItem → List Candidate)
    (send : List OppRow → Bool) (scrape : ScrapeResult) (db : DbState) :
    RunOutput :=
  let raw_items := scrape.raw_items
  let sources := scrape.sources_scanned
  if raw_items = [] then
    { outcome := .no_data 0,
      db := log_scan db (pyJoinComma sources) 0 0,
      stages := ⟨false, false, false, false⟩,
      digest := [] }
  else
    let opportunities := analyze raw_items
    let filtered := filterAgentProcess db opportunities
    let saved := save_opportunities db filtered
    let top := get_top_opportunities saved.1 5
    let email_sent := if top = [] then false else send top
    let db2 := log_scan saved.1 (pyJoinComma sources) raw_items.length saved.2
    { outcome := .complete raw_items.length opportunities.length
        filtered.length saved.2 email_sent,
      db := db2,
      stages := ⟨true, true, true, true⟩,
      digest := top }

/-! ## `app.py` — shared run state and triggers

`scan_status` is the process-wide dict guarded by `scan_lock`; every
access in the source happens inside `with scan_lock`, so each lock-held
block is one atomic transition and interleavings of triggers and
completions are sequences of these transitions. -/

/-- The `scan_status` dict of `app.py`. -/
structure ScanStatus where
  running : Bool
  started_at : Option Nat
  finished_at : Option Nat
  last_result : Option ScanOutcome
  last_error : Option String
deriving DecidableEq

/-- What a trigger call produced: the JSON reply of `/api/scan`, or the
bare `return` of `scheduled_scan` (which returns `None` — no payload). -/
inductive TrigResult where
  | apiStarted
  | apiAlreadyRunning (started_at : Option Nat)
  | schedStarted
  | schedSkipped
deriving DecidableEq

/-- Did this trigger actually launch a pipeline run? -/
def launchedRun : TrigResult → Bool
  | .apiStarted => true
  | .schedStarted => true
  | _ => false

/-- The run-start timestamp carried by a rejected trigger's reply, if the
reply carries one (`scheduled_scan`'s `None` carries nothing). -/
def rejectionStartedAt : TrigResult → Option (Option Nat)
  | .apiAlreadyRunning t => some t
  | _ => none

/-- A trigger event: the `/api/scan` POST handler or the APScheduler
callback, each carrying the `datetime.now()` it would record. -/
inductive Trigger where
  | manual (now : Nat)
  | sched (now : Nat)
deriving DecidableEq

/-- The `with scan_lock:` check-and-set block of `api_scan` (lines
150–157) and of `scheduled_scan` (lines 64–69), as one atomic step.
`api_scan` clears the last result/error fields on start;
`scheduled_scan` only flips `running` and `started_at`. -/
def applyTrigger : Trigger → ScanStatus → ScanStatus × TrigResult
  | .manual now, st =>
    if st.running then
      (st, .apiAlreadyRunning st.started_at)
    else
      ({ running := true, started_at := some now, finished_at := none,
         last_result := none, last_error := none }, .apiStarted)
  | .sched now, st =>
    if st.running then
      (st, .schedSkipped)
    else
      ({ st with running := true, started_at := some now }, .schedStarted)

/-- The completion block of `run_scan_background` (success or caught
exception), as one atomic step: clears `running`, records the result or
the error. -/
def applyCompletion (finished : Nat) (result : Except String ScanOutcome)
    (st : ScanStatus) : ScanStatus :=
  match result with
  | .ok r =>
    { st with
      running := false
      last_result := some r
      last_error := none
      finished_at := some finished }
  | .error e =>
    { st with
      running := false
      last_error := some e
      finished_at := some finished }

/-! ## Lemmas about `save_opportunities` -/

theorem collides_iff (rows : List OppRow) (c : Candidate) :
    collides rows c = true ↔ ∃ r ∈ rows, r.url = c.url ∨ r.title = c.title := by
  simp [collides]

theorem collides_append_left {rows : List OppRow} {c : Candidate}
    (h : collides rows c = true) (tail : List OppRow) :
    collides (rows ++ tail) c = true := by
  rw [collides_iff] at h ⊢
  obtain ⟨r, hr, hor⟩ := h
  exact ⟨r, List.mem_append_left tail hr, hor⟩

/-- `save_opportunities` only appends to the `opportunities` table and
leaves the other tables untouched. -/
theorem save_opportunities_extends (db : DbState) (l : List Candidate) :
    (∃ tail, (save_opportunities db l).1.opportunities =
      db.opportunities ++ tail) ∧
    (save_opportunities db l).1.dismissed = db.dismissed ∧
    (save_opportunities db l).1.bookmarked = db.bookmarked ∧
    (save_opportunities db l).1.scanLog = db.scanLog := by
  induction l generalizing db with
  | nil => exact ⟨⟨[], by simp [save_opportunities]⟩, rfl, rfl, rfl⟩
  | cons c rest ih =>
    rw [save_opportunities]
    split
    · exact ih db
    · obtain ⟨⟨tail, htail⟩, h1, h2, h3⟩ := ih (insertRow db c)
      refine ⟨⟨mkOppRow db c :: tail, ?_⟩, h1, h2, h3⟩
      rw [htail]
      simp [insertRow]

/-- The returned count is exactly the number of rows the call added. -/
theorem save_opportunities_count (db : DbState) (l : List Candidate) :
    db.opportunities.length + (save_opportunities db l).2 =
      (save_opportunities db l).1.opportunities.length := by
  induction l generalizing db with
  | nil => simp [save_opportunities]
  | cons c rest ih =>
    rw [save_opportunities]
    split
    · exact ih db
    · have h := ih (insertRow db c)
      have hlen : (insertRow db c).opportunities.length =
          db.opportunities.length + 1 := by
        simp [insertRow]
      dsimp only
      omega

/-- After a save, every candidate of the list collides with some row of
the resulting table (its own insert, or a row that was already there). -/
theorem save_opportunities_covers (db : DbState) (l : List Candidate) :
    ∀ c ∈ l, collides (save_opportunities db l).1.opportunities c = true := by
  induction l generalizing db with
  | nil => intro c hc; cases hc
  | cons c rest ih =>
    intro c' hc'
    rw [save_opportunities]
    split
    · rename_i hcol
      rcases List.mem_cons.mp hc' with rfl | hmem
      · obtain ⟨⟨tail, htail⟩, -⟩ := save_opportunities_extends db rest
        rw [htail]
        exact collides_append_left hcol tail
      · exact ih db c' hmem
    · rcases List.mem_cons.mp hc' with rfl | hmem
      · obtain ⟨⟨tail, htail⟩, -⟩ :=
          save_opportunities_extends (insertRow db c') rest
        dsimp only
        rw [htail, insertRow]
        rw [collides_iff]
        refine ⟨mkOppRow db c', ?_, Or.inl rfl⟩
        simp
      · exact ih (insertRow db c) c' hmem

/-- If every candidate already collides with the table, nothing happens. -/
theorem save_opportunities_all_collide (db : DbState) (l : List Candidate)
    (h : ∀ c ∈ l, collides db.opportunities c = true) :
    save_opportunities db l = (db, 0) := by
  induction l with
  | nil => rfl
  | cons c rest ih =>
    rw [save_opportunities]
    rw [if_pos (h c (List.mem_cons_self c rest))]
    exact ih fun c' hc' => h c' (List.mem_cons_of_mem c hc')

/-- The table invariant of the spec: no two stored rows share a title or
share a URL string. -/
def rowsUnique (rows : List OppRow) : Prop :=
  rows.Pairwise fun a b => a.title ≠ b.title ∧ a.url ≠ b.url

/-- Pairwise non-collision of a candidate list: no two candidates share a
title or share a URL string (the empty URL counts as a shared URL). -/
def candsDistinct (l : List Candidate) : Prop :=
  l.Pairwise fun a b => a.title ≠ b.title ∧ a.url ≠ b.url

theorem save_opportunities_unique (db : DbState) (l : List Candidate)
    (h : rowsUnique db.opportunities) :
    rowsUnique (save_opportunities db l).1.opportunities := by
  induction l generalizing db with
  | nil => exact h
  | cons c rest ih =>
    rw [save_opportunities]
    split
    · exact ih db h
    · rename_i hcol
      apply ih (insertRow db c)
      rw [insertRow]
      dsimp only
      rw [rowsUnique, List.pairwise_append]
      refine ⟨h, List.pairwise_singleton _ _, ?_⟩
      intro a ha b hb
      rw [List.mem_singleton] at hb
      subst hb
      rw [collides_iff] at hcol
      push_neg at hcol
      have := hcol a ha
      exact ⟨fun ht => this.2 ht, fun hu => this.1 hu⟩

theorem collides_append (rows rows' : List OppRow) (c : Candidate) :
    collides (rows ++ rows') c = (collides rows c || collides rows' c) := by
  simp [collides, List.any_append]

theorem save_opportunities_fresh (db : DbState) (l : List Candidate)
    (h1 : ∀ c ∈ l, collides db.opportunities c = false)
    (h2 : candsDistinct l) :
    (save_opportunities db l).2 = l.length := by
  induction l generalizing db with
  | nil => rfl
  | cons c rest ih =>
    rw [save_opportunities]
    rw [if_neg (by simp [h1 c (List.mem_cons_self c rest)])]
    rw [candsDistinct, List.pairwise_cons] at h2
    have hrest : ∀ c' ∈ rest, collides (insertRow db c).opportunities c' = false := by
      intro c' hc'
      rw [insertRow]
      dsimp only
      rw [collides_append, Bool.or_eq_false_iff]
      refine ⟨h1 c' (List.mem_cons_of_mem c hc'), ?_⟩
      have hd := h2.1 c' hc'
      simp [collides, mkOppRow]
      exact ⟨fun hu => (hd.2 hu).elim, fun ht => (hd.1 ht).elim⟩
    have := ih (insertRow db c) hrest h2.2
    dsimp only
    rw [this, List.length_cons]

/-! ## Claim C1 -/

/-- C1 (counterexample): the claim says a candidate whose title is absent
from the table and whose URL is empty is always inserted.  But the
duplicate check `WHERE url = ? OR title = ?` also matches on the empty
URL: saving two fresh-titled, empty-URL candidates into an empty store
inserts only the first (the second matches the first row's empty `url`),
and `save` returns 1, not 2. -/
theorem c1_counterexample :
    (save_opportunities ⟨[], 1, [], [], [], 0⟩
        [⟨"Opportunity A", "", 5, "", "", "", ""⟩,
         ⟨"Opportunity B", "", 5, "", "", "", ""⟩]).2 = 1 ∧
    ((save_opportunities ⟨[], 1, [], [], [], 0⟩
        [⟨"Opportunity A", "", 5, "", "", "", ""⟩,
         ⟨"Opportunity B", "", 5, "", "", "", ""⟩]).1.opportunities.map
      OppRow.title) = ["Opportunity A"] := by
  decide

/-- C1 (amended): a candidate is inserted iff no row of the table at its
turn (initial rows plus rows inserted for earlier candidates of the same
call) has the same title or the same URL string — the URL comparison
includes the empty URL.  Consequently: the returned count is exactly the
number of rows inserted; after the call every candidate collides with
some row of the table; and the (title OR url)-uniqueness invariant of the
table is preserved. -/
theorem c1_save_insert_semantics (db : DbState) (l : List Candidate) :
    (db.opportunities.length + (save_opportunities db l).2 =
      (save_opportunities db l).1.opportunities.length) ∧
    (∀ c ∈ l, ∃ r ∈ (save_opportunities db l).1.opportunities,
      r.url = c.url ∨ r.title = c.title) ∧
    (rowsUnique db.opportunities →
      rowsUnique (save_opportunities db l).1.opportunities) :=
  ⟨save_opportunities_count db l,
   fun c hc => (collides_iff _ c).mp (save_opportunities_covers db l c hc),
   fun h => save_opportunities_unique db l h⟩

/-- C1 witness: the amended theorem applied to a concrete store and
candidate list. -/
theorem c1_save_insert_semantics_witness :
    (∃ r ∈ (save_opportunities ⟨[], 1, [], [], [], 0⟩
        [⟨"Opportunity A", "", 5, "", "", "", ""⟩]).1.opportunities,
      r.url = (⟨"Opportunity A", "", 5, "", "", "", ""⟩ : Candidate).url ∨
        r.title = (⟨"Opportunity A", "", 5, "", "", "", ""⟩ : Candidate).title) ∧
    rowsUnique (save_opportunities ⟨[], 1, [], [], [], 0⟩
        [⟨"Opportunity A", "", 5, "", "", "", ""⟩]).1.opportunities :=
  ⟨(c1_save_insert_semantics ⟨[], 1, [], [], [], 0⟩
      [⟨"Opportunity A", "", 5, "", "", "", ""⟩]).2.1 _ (by decide),
   (c1_save_insert_semantics ⟨[], 1, [], [], [], 0⟩
      [⟨"Opportunity A", "", 5, "", "", "", ""⟩]).2.2
      (by simp [rowsUnique])⟩

/-! ## Claim C2 -/

/-- C2 (counterexample): the claim promises `count_added = N` for every
N-candidate list the store does not contain.  The empty store does not
contain the two fresh-titled empty-URL candidates below (no row collides
with either), the list has length 2, yet the first call returns 1: the
second candidate collides with the first candidate's row via the empty
URL. -/
theorem c2_counterexample :
    (([(⟨"Opportunity A", "", 5, "", "", "", ""⟩ : Candidate),
       ⟨"Opportunity B", "", 5, "", "", "", ""⟩].all fun c =>
        !collides ([] : List OppRow) c) = true) ∧
    [(⟨"Opportunity A", "", 5, "", "", "", ""⟩ : Candidate),
     ⟨"Opportunity B", "", 5, "", "", "", ""⟩].length = 2 ∧
    (save_opportunities ⟨[], 1, [], [], [], 0⟩
        [⟨"Opportunity A", "", 5, "", "", "", ""⟩,
         ⟨"Opportunity B", "", 5, "", "", "", ""⟩]).2 = 1 := by
  decide

/-- C2 (amended): `save` never raises (it is a total function); the empty
list adds 0; a second call with the identical list always adds 0 (each
candidate collides with the table the first call left behind); and the
first call adds exactly N provided no candidate collides with the initial
table and the candidates are pairwise non-colliding (no two share a title
or a URL string — the clause the counterexample forces). -/
theorem c2_save_idempotent (db : DbState) (l : List Candidate) :
    (save_opportunities db []).2 = 0 ∧
    (save_opportunities (save_opportunities db l).1 l).2 = 0 ∧
    ((∀ c ∈ l, collides db.opportunities c = false) → candsDistinct l →
      (save_opportunities db l).2 = l.length) := by
  refine ⟨rfl, ?_, fun h1 h2 => save_opportunities_fresh db l h1 h2⟩
  have hall : ∀ c ∈ l,
      collides (save_opportunities db l).1.opportunities c = true :=
    save_opportunities_covers db l
  rw [save_opportunities_all_collide (save_opportunities db l).1 l hall]

/-- C2 witness: a fresh two-candidate list with distinct titles and
distinct URLs adds 2 on the first call and 0 on the second. -/
theorem c2_save_idempotent_witness :
    (save_opportunities
      (save_opportunities ⟨[], 1, [], [], [], 0⟩
        [⟨"Opportunity A", "", 5, "", "", "", "http://a"⟩,
         ⟨"Opportunity B", "", 5, "", "", "", "http://b"⟩]).1
      [⟨"Opportunity A", "", 5, "", "", "", "http://a"⟩,
       ⟨"Opportunity B", "", 5, "", "", "", "http://b"⟩]).2 = 0 ∧
    (save_opportunities ⟨[], 1, [], [], [], 0⟩
      [⟨"Opportunity A", "", 5, "", "", "", "http://a"⟩,
       ⟨"Opportunity B", "", 5, "", "", "", "http://b"⟩]).2 = 2 :=
  ⟨(c2_save_idempotent ⟨[], 1, [], [], [], 0⟩
      [⟨"Opportunity A", "", 5, "", "", "", "http://a"⟩,
       ⟨"Opportunity B", "", 5, "", "", "", "http://b"⟩]).2.1,
   (c2_save_idempotent ⟨[], 1, [], [], [], 0⟩
      [⟨"Opportunity A", "", 5, "", "", "", "http://a"⟩,
       ⟨"Opportunity B", "", 5, "", "", "", "http://b"⟩]).2.2
      (by decide) (by simp [candsDistinct])⟩

/-! ## Lemmas about the filter loop -/

theorem filterTrace_map_fst (eT eU : List String) :
    ∀ (seen : List String) (l : List Candidate),
      (filterTrace eT eU seen l).map Prod.fst = l := by
  intro seen l
  induction l generalizing seen with
  | nil => rfl
  | cons opp rest ih =>
    rw [filterTrace]
    split
    · simpa using ih seen
    · dsimp only
      split
      · simpa using ih seen
      · split
        · simpa using ih _
        · split
          · simpa using ih _
          · simpa using ih _

/-- A candidate whose normalized title is already in `seen_titles` never
survives (its verdict is one of the `continue`s). -/
theorem filterTrace_seen_shadows (eT eU : List String) :
    ∀ (seen : List String) (l : List Candidate) (c : Candidate)
      (r : Option DropReason),
      (c, r) ∈ filterTrace eT eU seen l →
      pyLower (pyStrip c.title) ∈ seen → r ≠ none := by
  intro seen l
  induction l generalizing seen with
  | nil => intro c r h; cases h
  | cons opp rest ih =>
    intro c r hmem hseen
    rw [filterTrace] at hmem
    split at hmem
    · rcases List.mem_cons.mp hmem with h | h
      · cases h; simp
      · exact ih seen c r h hseen
    · dsimp only at hmem
      split at hmem
      · rcases List.mem_cons.mp hmem with h | h
        · cases h; simp
        · exact ih seen c r h hseen
      · split at hmem
        · rcases List.mem_cons.mp hmem with h | h
          · cases h; simp
          · exact ih _ c r h (List.mem_cons_of_mem _ hseen)
        · split at hmem
          · rcases List.mem_cons.mp hmem with h | h
            · cases h; simp
            · exact ih _ c r h (List.mem_cons_of_mem _ hseen)
          · rcases List.mem_cons.mp hmem with h | h
            · rename_i hsc hnseen hnT hnU
              cases h
              exact absurd hseen hnseen
            · exact ih _ c r h (List.mem_cons_of_mem _ hseen)

/-- The verdict on a candidate is `lowScore` exactly when its score is
below 4 (the threshold check runs first and fires on nothing else). -/
theorem filterTrace_lowScore_iff (eT eU : List String) :
    ∀ (seen : List String) (l : List Candidate) (c : Candidate)
      (r : Option DropReason),
      (c, r) ∈ filterTrace eT eU seen l →
      (r = some .lowScore ↔ c.score < 4) := by
  intro seen l
  induction l generalizing seen with
  | nil => intro c r h; cases h
  | cons opp rest ih =>
    intro c r hmem
    rw [filterTrace] at hmem
    split at hmem
    · rcases List.mem_cons.mp hmem with h | h
      · rename_i hsc
        cases h
        simpa using hsc
      · exact ih seen c r h
    · dsimp only at hmem
      split at hmem
      · rcases List.mem_cons.mp hmem with h | h
        · rename_i hsc _
          cases h
          simpa using hsc
        · exact ih seen c r h
      · split at hmem
        · rcases List.mem_cons.mp hmem with h | h
          · rename_i hsc _ _
            cases h
            simpa using hsc
          · exact ih _ c r h
        · split at hmem
          · rcases List.mem_cons.mp hmem with h | h
            · rename_i hsc _ _ _
              cases h
              simpa using hsc
            · exact ih _ c r h
          · rcases List.mem_cons.mp hmem with h | h
            · rename_i hsc _ _ _
              cases h
              simpa using hsc
            · exact ih _ c r h

/-- First-occurrence discipline, pointwise over the instrumented trace:
whenever an earlier candidate shares a later one's normalized title and
the earlier one passed the score threshold, the later one is dropped. -/
theorem filterTrace_pairwise (eT eU : List String) :
    ∀ (seen : List String) (l : List Candidate),
      List.Pairwise
        (fun a b => pyLower (pyStrip a.1.title) = pyLower (pyStrip b.1.title) →
          ¬(a.1.score < 4) → b.2 ≠ none)
        (filterTrace eT eU seen l) := by
  intro seen l
  induction l generalizing seen with
  | nil => exact List.Pairwise.nil
  | cons opp rest ih =>
    rw [filterTrace]
    split
    · rename_i hsc
      refine List.pairwise_cons.mpr ⟨?_, ih seen⟩
      intro b hb heq habs
      exact absurd hsc habs
    · dsimp only
      split
      · rename_i hsc hseen
        refine List.pairwise_cons.mpr ⟨?_, ih seen⟩
        intro b hb heq habs
        exact filterTrace_seen_shadows eT eU seen rest b.1 b.2
          (by simpa using hb) (heq ▸ hseen)
      · split
        · refine List.pairwise_cons.mpr ⟨?_, ih _⟩
          intro b hb heq habs
          exact filterTrace_seen_shadows eT eU _ rest b.1 b.2
            (by simpa using hb)
            (by rw [← heq]; exact List.mem_cons_self _ _)
        · split
          · refine List.pairwise_cons.mpr ⟨?_, ih _⟩
            intro b hb heq habs
            exact filterTrace_seen_shadows eT eU _ rest b.1 b.2
              (by simpa using hb)
              (by rw [← heq]; exact List.mem_cons_self _ _)
          · refine List.pairwise_cons.mpr ⟨?_, ih _⟩
            intro b hb heq habs
            exact filterTrace_seen_shadows eT eU _ rest b.1 b.2
              (by simpa using hb)
              (by rw [← heq]; exact List.mem_cons_self _ _)

/-- A surviving candidate's normalized title is not in the history set,
and its stripped URL is empty or not in the history set. -/
theorem filterTrace_survivor_not_in_history (eT eU : List String) :
    ∀ (seen : List String) (l : List Candidate) (c : Candidate),
      (c, none) ∈ filterTrace eT eU seen l →
      pyLower (pyStrip c.title) ∉ eT ∧
        (pyStrip c.url = "" ∨ pyStrip c.url ∉ eU) := by
  intro seen l
  induction l generalizing seen with
  | nil => intro c h; cases h
  | cons opp rest ih =>
    intro c hmem
    rw [filterTrace] at hmem
    split at hmem
    · rcases List.mem_cons.mp hmem with h | h
      · cases h
      · exact ih seen c h
    · dsimp only at hmem
      split at hmem
      · rcases List.mem_cons.mp hmem with h | h
        · cases h
        · exact ih seen c h
      · split at hmem
        · rcases List.mem_cons.mp hmem with h | h
          · cases h
          · exact ih _ c h
        · split at hmem
          · rcases List.mem_cons.mp hmem with h | h
            · cases h
            · exact ih _ c h
          · rcases List.mem_cons.mp hmem with h | h
            · rename_i hsc hnseen hnT hnU
              cases h
              refine ⟨hnT, ?_⟩
              by_cases hu : pyStrip opp.url = ""
              · exact Or.inl hu
              · exact Or.inr fun hin => hnU ⟨hu, hin⟩
            · exact ih _ c h

/-- The verdict `historyUrl` fires exactly on a non-empty stripped URL
present in the history set. -/
theorem filterTrace_historyUrl_char (eT eU : List String) :
    ∀ (seen : List String) (l : List Candidate) (c : Candidate)
      (r : Option DropReason),
      (c, r) ∈ filterTrace eT eU seen l → r = some .historyUrl →
      pyStrip c.url ≠ "" ∧ pyStrip c.url ∈ eU := by
  intro seen l
  induction l generalizing seen with
  | nil => intro c r h; cases h
  | cons opp rest ih =>
    intro c r hmem hr
    rw [filterTrace] at hmem
    split at hmem
    · rcases List.mem_cons.mp hmem with h | h
      · cases h; cases hr
      · exact ih seen c r h hr
    · dsimp only at hmem
      split at hmem
      · rcases List.mem_cons.mp hmem with h | h
        · cases h; cases hr
        · exact ih seen c r h hr
      · split at hmem
        · rcases List.mem_cons.mp hmem with h | h
          · cases h; cases hr
          · exact ih _ c r h hr
        · split at hmem
          · rcases List.mem_cons.mp hmem with h | h
            · rename_i hurl
              cases h
              exact hurl
            · exact ih _ c r h hr
          · rcases List.mem_cons.mp hmem with h | h
            · cases h; cases hr
            · exact ih _ c r h hr

/-- Survivors of the loop are exactly the trace's `none`-verdict pairs. -/
theorem mem_filterLoop_iff (eT eU : List String) (seen : List String)
    (l : List Candidate) (c : Candidate) :
    c ∈ filterLoop eT eU seen l ↔ (c, none) ∈ filterTrace eT eU seen l := by
  rw [filterLoop_eq_traceSurvivors, traceSurvivors]
  constructor
  · intro h
    obtain ⟨⟨a, b⟩, hp, hpc⟩ := List.mem_map.mp h
    obtain ⟨hpt, hpf⟩ := List.mem_filter.mp hp
    have ha : a = c := hpc
    have hb : b = none := by simpa using hpf
    rw [ha, hb] at hpt
    exact hpt
  · intro h
    exact List.mem_map.mpr ⟨(c, none), List.mem_filter.mpr ⟨h, by simp⟩, rfl⟩

theorem filterAgentProcess_sublist (db : DbState) (cands : List Candidate) :
    (filterAgentProcess db cands).Sublist cands := by
  rw [filterAgentProcess]
  split
  · exact List.nil_sublist cands
  · rw [filterLoop_eq_traceSurvivors, traceSurvivors]
    have h2 : ((filterTrace (existingTitles db) (existingUrls db) [] cands).filter
        fun p => p.2 = none).Sublist
        (filterTrace (existingTitles db) (existingUrls db) [] cands) :=
      List.filter_sublist _
    have h3 := List.Sublist.map Prod.fst h2
    rw [filterTrace_map_fst] at h3
    exact h3

theorem mem_existingTitles_iff (db : DbState) (s : String) :
    s ∈ existingTitles db ↔
      ∃ r ∈ db.opportunities, pyLower (pyStrip r.title) = s := by
  simp [existingTitles, pyStrip_pyLower_comm]

theorem mem_existingUrls_iff (db : DbState) (s : String) :
    s ∈ existingUrls db ↔
      ∃ r ∈ db.opportunities, r.url ≠ "" ∧ pyStrip r.url = s := by
  simp [existingUrls]
  constructor
  · rintro ⟨r, ⟨hmem, hne⟩, hs⟩
    exact ⟨r, hmem, hne, hs⟩
  · rintro ⟨r, hmem, hne, hs⟩
    exact ⟨r, ⟨hmem, hne⟩, hs⟩

theorem mem_filterAgentProcess (db : DbState) (cands : List Candidate)
    (c : Candidate) (h : c ∈ filterAgentProcess db cands) :
    (c, none) ∈ filterTrace (existingTitles db) (existingUrls db) [] cands := by
  rw [filterAgentProcess] at h
  split at h
  · cases h
  · exact (mem_filterLoop_iff _ _ _ _ _).mp h

/-! ## Claim C4 -/

/-- C4 (counterexample): the claim says a candidate is dropped by the URL
check only if its exact URL string exists in persisted history, with
surrounding whitespace treated as distinguishing.  But both sides are
stripped: the candidate URL `"http://x "` (trailing blank) equals no
stored URL string, yet the candidate is dropped against a store whose one
row has URL `"http://x"`. -/
theorem c4_counterexample :
    filterAgentProcess
        ⟨[⟨1, "Old Opportunity", "", "hn", "http://x", 5, "", "", "", 0,
            "new"⟩], 2, [], [], [], 1⟩
        [⟨"New Opportunity", "", 5, "", "", "", "http://x "⟩] = [] ∧
    (⟨"New Opportunity", "", 5, "", "", "", "http://x "⟩ : Candidate).url
        ≠ "" ∧
    (([⟨1, "Old Opportunity", "", "hn", "http://x", 5, "", "", "", 0,
        "new"⟩] : List OppRow).all fun r => r.url != "http://x ") = true := by
  decide

/-- C4 (amended): the URL check compares the stripped candidate URL, for
string equality and with no other normalization, against the stripped
stored URLs of rows whose URL is non-empty: a candidate is dropped by the
URL check only if its stripped URL is non-empty and equals some such
stored URL's stripped form; a candidate whose URL strips to empty, or
whose stripped URL matches no stored row, is never dropped by the URL
check; and a surviving candidate's stripped URL is empty or absent from
the stripped history. -/
theorem c4_url_dedup (db : DbState) (cands : List Candidate) (c : Candidate)
    (r : Option DropReason)
    (hmem : (c, r) ∈ filterTrace (existingTitles db) (existingUrls db) []
      cands) :
    (r = some .historyUrl →
      pyStrip c.url ≠ "" ∧
        ∃ row ∈ db.opportunities, row.url ≠ "" ∧
          pyStrip row.url = pyStrip c.url) ∧
    (pyStrip c.url = "" → r ≠ some .historyUrl) ∧
    ((∀ row ∈ db.opportunities, row.url = "" ∨
        pyStrip row.url ≠ pyStrip c.url) → r ≠ some .historyUrl) ∧
    (r = none →
      pyStrip c.url = "" ∨
        ∀ row ∈ db.opportunities, row.url = "" ∨
          pyStrip row.url ≠ pyStrip c.url) := by
  refine ⟨?_, ?_, ?_, ?_⟩
  · intro hr
    obtain ⟨hne, hin⟩ :=
      filterTrace_historyUrl_char _ _ _ cands c r hmem hr
    obtain ⟨row, hrow, hrne, hrs⟩ := (mem_existingUrls_iff db _).mp hin
    exact ⟨hne, row, hrow, hrne, hrs⟩
  · intro hstrip hr
    obtain ⟨hne, -⟩ :=
      filterTrace_historyUrl_char _ _ _ cands c r hmem hr
    exact hne hstrip
  · intro hno hr
    obtain ⟨hne, hin⟩ :=
      filterTrace_historyUrl_char _ _ _ cands c r hmem hr
    obtain ⟨row, hrow, hrne, hrs⟩ := (mem_existingUrls_iff db _).mp hin
    rcases hno row hrow with h | h
    · exact hrne h
    · exact h hrs
  · intro hr
    subst hr
    obtain ⟨-, hu⟩ :=
      filterTrace_survivor_not_in_history _ _ _ cands c hmem
    rcases hu with h | h
    · exact Or.inl h
    · refine Or.inr fun row hrow => ?_
      by_cases hrne : row.url = ""
      · exact Or.inl hrne
      · refine Or.inr fun hrs => ?_
        exact h ((mem_existingUrls_iff db _).mpr ⟨row, hrow, hrne, hrs⟩)

/-- C4 witness: against a store whose one row has URL `"http://x"`, a
fresh-titled candidate with the same URL gets the `historyUrl` verdict,
and the amended theorem recovers the matching row. -/
theorem c4_url_dedup_witness :
    pyStrip (⟨"New Opportunity", "", 5, "", "", "", "http://x"⟩ :
        Candidate).url ≠ "" ∧
    ∃ row ∈ (⟨[⟨1, "Old Opportunity", "", "hn", "http://x", 5, "", "", "",
        0, "new"⟩], 2, [], [], [], 1⟩ : DbState).opportunities,
      row.url ≠ "" ∧
        pyStrip row.url =
          pyStrip (⟨"New Opportunity", "", 5, "", "", "", "http://x"⟩ :
            Candidate).url :=
  (c4_url_dedup
      ⟨[⟨1, "Old Opportunity", "", "hn", "http://x", 5, "", "", "", 0,
          "new"⟩], 2, [], [], [], 1⟩
      [⟨"New Opportunity", "", 5, "", "", "", "http://x"⟩]
      ⟨"New Opportunity", "", 5, "", "", "", "http://x"⟩
      (some .historyUrl) (by decide)).1 (by decide)

/-! ## Claim C5 -/

/-- C5: the score gate is the first check of the filter loop and fires
exactly on `score < 4` (a strict, closed threshold: 4.0 passes, anything
below 4 is dropped with the `lowScore` verdict), and every surviving
candidate has score at least 4. -/
theorem c5_score_threshold (db : DbState) (cands : List Candidate) :
    (∀ (c : Candidate) (r : Option DropReason),
      (c, r) ∈ filterTrace (existingTitles db) (existingUrls db) [] cands →
      (r = some .lowScore ↔ c.score < 4)) ∧
    (∀ c ∈ filterAgentProcess db cands, 4 ≤ c.score) := by
  refine ⟨fun c r hmem => filterTrace_lowScore_iff _ _ _ cands c r hmem, ?_⟩
  intro c hc
  have htr := mem_filterAgentProcess db cands c hc
  have hiff := filterTrace_lowScore_iff _ _ _ cands c none htr
  have : ¬ c.score < 4 := fun hlt => by
    have := hiff.mpr hlt
    cases this
  exact le_of_not_lt this

/-- C5 witness: with an empty history, a candidate with score exactly 4
survives the filter and the theorem yields `4 ≤ 4`, while a score-39/10
candidate gets the `lowScore` verdict. -/
theorem c5_score_threshold_witness :
    4 ≤ (⟨"Borderline Idea", "", 4, "", "", "", ""⟩ : Candidate).score ∧
    (some DropReason.lowScore = some DropReason.lowScore ↔
      (⟨"Weak Idea", "", 3, "", "", "", ""⟩ : Candidate).score < 4) :=
  ⟨(c5_score_threshold ⟨[], 1, [], [], [], 0⟩
      [⟨"Borderline Idea", "", 4, "", "", "", ""⟩]).2
      ⟨"Borderline Idea", "", 4, "", "", "", ""⟩ (by decide),
   (c5_score_threshold ⟨[], 1, [], [], [], 0⟩
      [⟨"Weak Idea", "", 3, "", "", "", ""⟩]).1
      ⟨"Weak Idea", "", 3, "", "", "", ""⟩ (some .lowScore) (by decide)⟩

/-! ## Claim C6 -/

/-- C6 (counterexample): the claim says that among intra-batch duplicates
only the first occurrence in input order survives, regardless of which
duplicate has the higher score.  But `seen_titles` is only updated after
the score gate: when the first occurrence scores below the threshold, the
second occurrence of the same title survives. -/
theorem c6_counterexample :
    filterAgentProcess ⟨[], 1, [], [], [], 0⟩
        [⟨"Repeated Title", "", 3, "", "", "", ""⟩,
         ⟨"Repeated Title", "", 5, "", "", "", ""⟩] =
      [⟨"Repeated Title", "", 5, "", "", "", ""⟩] ∧
    pyLower (pyStrip (⟨"Repeated Title", "", 3, "", "", "", ""⟩ :
        Candidate).title) =
      pyLower (pyStrip (⟨"Repeated Title", "", 5, "", "", "", ""⟩ :
        Candidate).title) := by
  decide

/-- C6 (amended): title comparison is on the stripped-and-lowercased
form, both inside the batch and against history.  Among intra-batch
candidates with equal normalized titles, any candidate following an
occurrence that passed the score threshold is dropped regardless of the
scores involved (so at most the first threshold-passing occurrence can
survive; a first occurrence below the threshold does not shadow later
ones).  Survivors keep their original relative order (they form a sublist
of the input), and no survivor's normalized title equals that of any
stored row. -/
theorem c6_title_dedup (db : DbState) (cands : List Candidate) :
    ((filterTrace (existingTitles db) (existingUrls db) [] cands).map
      Prod.fst = cands) ∧
    List.Pairwise (fun a b =>
        pyLower (pyStrip a.1.title) = pyLower (pyStrip b.1.title) →
        ¬(a.1.score < 4) → b.2 ≠ none)
      (filterTrace (existingTitles db) (existingUrls db) [] cands) ∧
    (filterAgentProcess db cands).Sublist cands ∧
    (∀ c ∈ filterAgentProcess db cands, ∀ row ∈ db.opportunities,
      pyLower (pyStrip c.title) ≠ pyLower (pyStrip row.title)) := by
  refine ⟨filterTrace_map_fst _ _ _ _, filterTrace_pairwise _ _ _ _,
    filterAgentProcess_sublist db cands, ?_⟩
  intro c hc row hrow heq
  have htr := mem_filterAgentProcess db cands c hc
  obtain ⟨hT, -⟩ :=
    filterTrace_survivor_not_in_history _ _ _ cands c htr
  exact hT ((mem_existingTitles_iff db _).mpr ⟨row, hrow, heq.symm⟩)

/-- C6 witness: `" AGENT tool "` survives a batch against a store holding
`"Different Idea"`, and the theorem specializes to the two normalized
titles being distinct. -/
theorem c6_title_dedup_witness :
    pyLower (pyStrip (⟨" AGENT tool ", "", 5, "", "", "", ""⟩ :
        Candidate).title) ≠
      pyLower (pyStrip (⟨1, "Different Idea", "", "hn", "", 5, "", "", "",
        0, "new"⟩ : OppRow).title) :=
  (c6_title_dedup
      ⟨[⟨1, "Different Idea", "", "hn", "", 5, "", "", "", 0, "new"⟩],
        2, [], [], [], 1⟩
      [⟨" AGENT tool ", "", 5, "", "", "", ""⟩]).2.2.2
    ⟨" AGENT tool ", "", 5, "", "", "", ""⟩ (by decide)
    ⟨1, "Different Idea", "", "hn", "", 5, "", "", "", 0, "new"⟩ (by decide)

/-! ## Lemmas about `_analyze_batch` cleaning -/

/-- An element without a `title` key contributes nothing to the cleaning
loop. -/
theorem cleanList_drop_titleless (fields : List (String × Json))
    (hti : jsonGet fields "title" = none) :
    ∀ (xs ys : List Json),
      cleanList (xs ++ .obj fields :: ys) = cleanList (xs ++ ys) := by
  intro xs ys
  induction xs with
  | nil =>
    rw [List.nil_append, List.nil_append, cleanList]
    have hone : cleanOne (.obj fields) = .ok none := by
      rw [cleanOne, hti]
      rfl
    rw [hone]
    cases h : cleanList ys <;> rfl
  | cons x xs ih =>
    rw [List.cons_append, List.cons_append, cleanList, cleanList, ih]

/-- A raised `ValueError` in any element's `float(...)` coercion, with all
earlier elements cleaning without exception, makes the whole batch come
back empty (the `except` clause catches it and returns `[]`). -/
theorem cleanList_valueError (xs : List Json) (j : Json) (ys : List Json)
    (hok : ∀ j' ∈ xs, ∃ c?, cleanOne j' = .ok c?)
    (herr : cleanOne j = .error .valueError) :
    cleanList (xs ++ j :: ys) = .error .valueError := by
  induction xs with
  | nil =>
    rw [List.nil_append, cleanList, herr]
  | cons x xs ih =>
    obtain ⟨c?, hx⟩ := hok x (List.mem_cons_self x xs)
    rw [List.cons_append, cleanList, hx,
      ih fun j' hj' => hok j' (List.mem_cons_of_mem x hj')]

/-! ## Claim C3 -/

/-- C3 (counterexample): a reply that parses as a JSON array holding one
candidate with a `title` but an uncoercible score string makes
`float(...)` raise `ValueError`, which the batch-level `except` catches —
the whole batch yields zero candidates, not a single candidate with score
defaulted to 0. -/
theorem c3_counterexample :
    analyzeBatchParsed
        (.arr [.obj [("title", .str "Agent Idea"), ("score", .str "high")]])
      = .candidates [] := by
  decide

/-- C3 (amended): candidate objects missing `title` are discarded
individually; a missing `score` key defaults to 0 via `float(0)`;
but a present, uncoercible score does not default to 0 — the raised
`ValueError` is caught around the whole loop, so the entire batch yields
zero candidates even though the reply parsed as a JSON array. -/
theorem c3_batch_cleaning :
    (∀ (xs ys : List Json) (fields : List (String × Json)),
      jsonGet fields "title" = none →
      cleanList (xs ++ .obj fields :: ys) = cleanList (xs ++ ys)) ∧
    (∀ (fields : List (String × Json)) (t : Json),
      jsonGet fields "title" = some t →
      jsonGet fields "score" = none →
      ∃ c, cleanOne (.obj fields) = .ok (some c) ∧ c.score = 0) ∧
    (∀ (xs : List Json) (j : Json) (ys : List Json),
      (∀ j' ∈ xs, ∃ c?, cleanOne j' = .ok c?) →
      cleanOne j = .error .valueError →
      analyzeBatchParsed (.arr (xs ++ j :: ys)) = .candidates []) := by
  refine ⟨fun xs ys fields hti => cleanList_drop_titleless fields hti xs ys,
    ?_, ?_⟩
  · intro fields t ht hs
    simp only [cleanOne, ht, hs, Option.isSome_some, if_true,
      Option.getD_none, pyFloat]
    exact ⟨_, rfl, rfl⟩
  · intro xs j ys hok herr
    have h := cleanList_valueError xs j ys hok herr
    simp only [analyzeBatchParsed]
    rw [h]

/-- C3 witness: the amended theorem applied to the one-element batch with
the uncoercible score string, and to a titled object without a score. -/
theorem c3_batch_cleaning_witness :
    analyzeBatchParsed
        (.arr [.obj [("title", .str "Agent Idea"),
                     ("score", .str "high")]]) = .candidates [] ∧
    ∃ c, cleanOne (.obj [("title", .str "Agent Idea")]) = .ok (some c) ∧
      c.score = 0 :=
  ⟨c3_batch_cleaning.2.2 [] (.obj [("title", .str "Agent Idea"),
      ("score", .str "high")]) [] (by simp) (by rfl),
   c3_batch_cleaning.2.1 [("title", .str "Agent Idea")] (.str "Agent Idea")
      (by rfl) (by rfl)⟩

/-! ## Claim C7 -/

/-- C7: a run whose scrape produced zero raw items takes the early
`no_data` return: the returned dict is `status='no_data', items_found=0`,
exactly one scan-log row is appended and it carries
`items_found = 0, opportunities_added = 0`, the opportunities and
dismissed tables are untouched, no digest is handed to the notifier, and
none of the analyze/filter/store/notify stages runs. -/
theorem c7_no_data_path (analyze : List RawItem → List Candidate)
    (send : List OppRow → Bool) (scrape : ScrapeResult) (db : DbState)
    (h : scrape.raw_items = []) :
    (run_daily_scan analyze send scrape db).outcome = .no_data 0 ∧
    (run_daily_scan analyze send scrape db).db.scanLog =
      db.scanLog ++
        [{ scan_date := db.now,
           sources_scanned := pyJoinComma scrape.sources_scanned,
           items_found := 0, opportunities_added := 0 }] ∧
    (run_daily_scan analyze send scrape db).db.opportunities =
      db.opportunities ∧
    (run_daily_scan analyze send scrape db).db.dismissed = db.dismissed ∧
    (run_daily_scan analyze send scrape db).stages =
      ⟨false, false, false, false⟩ ∧
    (run_daily_scan analyze send scrape db).digest = [] := by
  rw [run_daily_scan]
  rw [if_pos h]
  exact ⟨rfl, rfl, rfl, rfl, rfl, rfl⟩

/-- C7 witness: a concrete empty scrape over two sources. -/
theorem c7_no_data_path_witness :
    (run_daily_scan (fun _ => []) (fun _ => true) ⟨[], ["reddit", "hn"]⟩
      ⟨[], 1, [], [], [], 7⟩).outcome = .no_data 0 ∧
    (run_daily_scan (fun _ => []) (fun _ => true) ⟨[], ["reddit", "hn"]⟩
      ⟨[], 1, [], [], [], 7⟩).db.scanLog =
      [{ scan_date := 7, sources_scanned := "reddit,hn",
         items_found := 0, opportunities_added := 0 }] := by
  have h := c7_no_data_path (fun _ => []) (fun _ => true)
    ⟨[], ["reddit", "hn"]⟩ ⟨[], 1, [], [], [], 7⟩ rfl
  exact ⟨h.1, by rw [h.2.1]; rfl⟩

/-! ## Claim C8 -/

/-- C8: dismissing or bookmarking an id that no opportunities row carries
changes no row of the opportunities table (the `UPDATE ... WHERE id = ?`
matches nothing), and raises no error — both operations are total and
still append their log row. -/
theorem c8_unknown_id_tolerated (db : DbState) (opp_id : Nat)
    (h : ∀ r ∈ db.opportunities, r.id ≠ opp_id) :
    (dismiss_opportunity db opp_id).opportunities = db.opportunities ∧
    (bookmark_opportunity db opp_id).opportunities = db.opportunities ∧
    (dismiss_opportunity db opp_id).dismissed =
      db.dismissed ++ [(opp_id, db.now)] ∧
    (bookmark_opportunity db opp_id).bookmarked =
      db.bookmarked ++ [(opp_id, db.now)] := by
  have hmap : ∀ (st : String),
      (db.opportunities.map fun r =>
        if r.id = opp_id then { r with status := st } else r) =
        db.opportunities := by
    intro st
    rw [List.map_congr_left fun r hr => if_neg (h r hr)]
    exact List.map_id db.opportunities
  exact ⟨hmap "dismissed", hmap "bookmarked", rfl, rfl⟩

/-- C8 witness: id 99 against a store holding only id 1. -/
theorem c8_unknown_id_tolerated_witness :
    (dismiss_opportunity
      ⟨[⟨1, "Kept Opportunity", "", "hn", "", 5, "", "", "", 0, "new"⟩],
        2, [], [], [], 3⟩ 99).opportunities =
      [⟨1, "Kept Opportunity", "", "hn", "", 5, "", "", "", 0, "new"⟩] ∧
    (bookmark_opportunity
      ⟨[⟨1, "Kept Opportunity", "", "hn", "", 5, "", "", "", 0, "new"⟩],
        2, [], [], [], 3⟩ 99).opportunities =
      [⟨1, "Kept Opportunity", "", "hn", "", 5, "", "", "", 0, "new"⟩] :=
  ⟨(c8_unknown_id_tolerated
      ⟨[⟨1, "Kept Opportunity", "", "hn", "", 5, "", "", "", 0, "new"⟩],
        2, [], [], [], 3⟩ 99 (by decide)).1,
   (c8_unknown_id_tolerated
      ⟨[⟨1, "Kept Opportunity", "", "hn", "", 5, "", "", "", 0, "new"⟩],
        2, [], [], [], 3⟩ 99 (by decide)).2.1⟩

/-! ## Claim C9 -/

/-- The `datetime.now()` a trigger would record as the run start. -/
def triggerTime : Trigger → Nat
  | .manual n => n
  | .sched n => n

/-- C9 (counterexample): the claim says every trigger arriving while a
run is executing is rejected with an already-running response carrying
the in-flight run's start timestamp.  A scheduled trigger arriving while
a manual run is in flight is indeed skipped — but `scheduled_scan` just
`return`s `None`: its outcome carries no payload and no timestamp. -/
theorem c9_counterexample :
    (applyTrigger (.sched 5)
      (applyTrigger (.manual 3) ⟨false, none, none, none, none⟩).1).2 =
      .schedSkipped ∧
    launchedRun .schedSkipped = false ∧
    rejectionStartedAt .schedSkipped = none := by
  decide

/-- C9 (amended): from a not-running state, for any two triggers (manual
or scheduled) whose lock-held check-and-set sections execute one after
the other with no completion in between, the first launches a run and
records its own start time, and the second launches nothing and leaves
the shared state untouched (rejected immediately, not queued); when the
second trigger is the manual API one, its reply is `already_running`
carrying the in-flight run's start timestamp; a scheduled second trigger
is skipped with no reply payload. -/
theorem c9_mutual_exclusion (st : ScanStatus) (t1 t2 : Trigger)
    (h : st.running = false) :
    launchedRun (applyTrigger t1 st).2 = true ∧
    (applyTrigger t1 st).1.running = true ∧
    (applyTrigger t1 st).1.started_at = some (triggerTime t1) ∧
    launchedRun (applyTrigger t2 (applyTrigger t1 st).1).2 = false ∧
    (applyTrigger t2 (applyTrigger t1 st).1).1 = (applyTrigger t1 st).1 ∧
    (∀ n2, t2 = .manual n2 →
      (applyTrigger t2 (applyTrigger t1 st).1).2 =
        .apiAlreadyRunning (some (triggerTime t1))) ∧
    (∀ n2, t2 = .sched n2 →
      (applyTrigger t2 (applyTrigger t1 st).1).2 = .schedSkipped) := by
  cases t1 <;> cases t2 <;>
    simp [applyTrigger, launchedRun, triggerTime, h]

/-- C9 witness: a manual trigger at time 3 followed by a manual trigger
at time 8 — the second gets `already_running` with timestamp 3. -/
theorem c9_mutual_exclusion_witness :
    launchedRun (applyTrigger (.manual 3)
      ⟨false, none, none, none, none⟩).2 = true ∧
    launchedRun (applyTrigger (.manual 8)
      (applyTrigger (.manual 3) ⟨false, none, none, none, none⟩).1).2 =
      false ∧
    (applyTrigger (.manual 8)
      (applyTrigger (.manual 3) ⟨false, none, none, none, none⟩).1).2 =
      .apiAlreadyRunning (some 3) := by
  have h := c9_mutual_exclusion ⟨false, none, none, none, none⟩
    (.manual 3) (.manual 8) rfl
  exact ⟨h.1, h.2.2.2.1, h.2.2.2.2.2.1 8 rfl⟩

/-! ## Claim C10 -/

/-- Every row the query returns satisfies its `WHERE` clause. -/
theorem get_opportunities_mem (db : DbState) (status : Option String)
    (limit : Nat) (min_score : Rat) (o : OppRow)
    (h : o ∈ get_opportunities db status limit min_score) :
    o ∈ db.opportunities ∧ min_score ≤ o.score ∧
      (∀ s, status = some s → o.status = s) ∧
      o.id ∉ dismissedIds db := by
  rw [get_opportunities] at h
  have h2 := (List.perm_insertionSort digestOrder _).mem_iff.mp
    ((List.take_sublist _ _).subset h)
  obtain ⟨hmem, hcond⟩ := List.mem_filter.mp h2
  simp only [Bool.and_eq_true, decide_eq_true_eq, Bool.not_eq_true'] at hcond
  refine ⟨hmem, hcond.1.1, ?_, ?_⟩
  · intro s hs
    subst hs
    simpa using hcond.1.2
  · intro habs
    have hc := hcond.2
    rw [List.contains_eq_any_beq] at hc
    rw [List.any_eq_false] at hc
    exact hc o.id habs (beq_self_eq_true o.id)

theorem get_opportunities_length (db : DbState) (status : Option String)
    (limit : Nat) (min_score : Rat) :
    (get_opportunities db status limit min_score).length ≤ limit := by
  rw [get_opportunities]
  exact List.length_take_le limit _

theorem get_opportunities_sorted (db : DbState) (status : Option String)
    (limit : Nat) (min_score : Rat) :
    List.Sorted digestOrder (get_opportunities db status limit min_score) := by
  rw [get_opportunities]
  exact List.Pairwise.sublist (List.take_sublist _ _)
    (List.sorted_insertionSort digestOrder _)

theorem get_top_opportunities_spec (db : DbState) :
    (get_top_opportunities db 5).length ≤ 5 ∧
    List.Sorted digestOrder (get_top_opportunities db 5) ∧
    (∀ o ∈ get_top_opportunities db 5,
      o.status = "new" ∧ 5 ≤ o.score ∧ o.id ∉ dismissedIds db) ∧
    (∀ o : OppRow, o.score < 5 → o ∉ get_top_opportunities db 5) := by
  refine ⟨get_opportunities_length db (some "new") 5 5,
    get_opportunities_sorted db (some "new") 5 5, ?_, ?_⟩
  · intro o ho
    obtain ⟨-, hsc, hst, hdis⟩ :=
      get_opportunities_mem db (some "new") 5 5 o ho
    exact ⟨hst "new" rfl, hsc, hdis⟩
  · intro o hlt ho
    obtain ⟨-, hsc, -, -⟩ :=
      get_opportunities_mem db (some "new") 5 5 o ho
    exact absurd hsc (not_le_of_lt hlt)

/-- C10: whatever the database and external stage behaviours, the list
the orchestrator hands to the email digest holds at most 5 rows, each
with status `'new'`, score at least 5, and an id absent from the
dismissed table; the list is ordered by score descending then found-date
descending; and no row with score below 5 — in particular one in
[4.0, 5.0), which survives the filter and is persisted — ever appears in
it. -/
theorem c10_digest_selection (analyze : List RawItem → List Candidate)
    (send : List OppRow → Bool) (scrape : ScrapeResult) (db : DbState) :
    ((run_daily_scan analyze send scrape db).digest.length ≤ 5) ∧
    List.Sorted digestOrder (run_daily_scan analyze send scrape db).digest ∧
    (∀ o ∈ (run_daily_scan analyze send scrape db).digest,
      o.status = "new" ∧ 5 ≤ o.score ∧ o.id ∉ dismissedIds db) ∧
    (∀ o : OppRow, o.score < 5 →
      o ∉ (run_daily_scan analyze send scrape db).digest) := by
  rw [run_daily_scan]
  split
  · exact ⟨by simp, List.sorted_nil, fun o ho => absurd ho (by simp),
      fun o _ ho => absurd ho (by simp)⟩
  · dsimp only
    have hspec := get_top_opportunities_spec
      (save_opportunities db
        (filterAgentProcess db (analyze scrape.raw_items))).1
    have hdis : dismissedIds
        (save_opportunities db
          (filterAgentProcess db (analyze scrape.raw_items))).1 =
        dismissedIds db := by
      rw [dismissedIds, dismissedIds,
        (save_opportunities_extends db
          (filterAgentProcess db (analyze scrape.raw_items))).2.1]
    refine ⟨hspec.1, hspec.2.1, ?_, hspec.2.2.2⟩
    intro o ho
    obtain ⟨h1, h2, h3⟩ := hspec.2.2.1 o ho
    rw [hdis] at h3
    exact ⟨h1, h2, h3⟩

/-- C10 witness: a store already holding a score-6 `'new'` row and a
score-9/2 row; a run whose analyzer finds nothing still sends the digest
with the score-6 row, and the score-9/2 row is excluded. -/
theorem c10_digest_selection_witness :
    ((⟨6, "Top Idea", "", "hn", "", 6, "", "", "", 0, "new"⟩ :
        OppRow).status = "new" ∧
      (5 : Rat) ≤ (⟨6, "Top Idea", "", "hn", "", 6, "", "", "", 0, "new"⟩ :
        OppRow).score ∧
      (⟨6, "Top Idea", "", "hn", "", 6, "", "", "", 0, "new"⟩ :
        OppRow).id ∉ dismissedIds
          ⟨[⟨6, "Top Idea", "", "hn", "", 6, "", "", "", 0, "new"⟩,
            ⟨7, "Mid Idea", "", "hn", "", mkRat 9 2, "", "", "", 0, "new"⟩],
            8, [], [], [], 9⟩) ∧
    (⟨7, "Mid Idea", "", "hn", "", mkRat 9 2, "", "", "", 0, "new"⟩ : OppRow) ∉
      (run_daily_scan (fun _ => []) (fun _ => true)
        ⟨[⟨"raw", "", "", "hn"⟩], ["hn"]⟩
        ⟨[⟨6, "Top Idea", "", "hn", "", 6, "", "", "", 0, "new"⟩,
          ⟨7, "Mid Idea", "", "hn", "", mkRat 9 2, "", "", "", 0, "new"⟩],
          8, [], [], [], 9⟩).digest :=
  ⟨(c10_digest_selection (fun _ => []) (fun _ => true)
      ⟨[⟨"raw", "", "", "hn"⟩], ["hn"]⟩
      ⟨[⟨6, "Top Idea", "", "hn", "", 6, "", "", "", 0, "new"⟩,
        ⟨7, "Mid Idea", "", "hn", "", mkRat 9 2, "", "", "", 0, "new"⟩],
        8, [], [], [], 9⟩).2.2.1
      ⟨6, "Top Idea", "", "hn", "", 6, "", "", "", 0, "new"⟩ (by decide),
   (c10_digest_selection (fun _ => []) (fun _ => true)
      ⟨[⟨"raw", "", "", "hn"⟩], ["hn"]⟩
      ⟨[⟨6, "Top Idea", "", "hn", "", 6, "", "", "", 0, "new"⟩,
        ⟨7, "Mid Idea", "", "hn", "", mkRat 9 2, "", "", "", 0, "new"⟩],
        8, [], [], [], 9⟩).2.2.2
      ⟨7, "Mid Idea", "", "hn", "", mkRat 9 2, "", "", "", 0, "new"⟩ (by norm_num)⟩
